import Mathlib

/-!
# WAutoSend — verification of the Scheduled Delivery Engine

Shallow embedding of `src/wautosend/scheduler.js` (class `WASScheduler`).
The live WhatsApp Web DOM, the clock, the clipboard and the outcomes of
awaited sub-operations are modelled as explicit environment records; every
scheduler function becomes a pure Lean function of its environment and of
the scheduler's mutable fields it touches, returning its JS return value
together with the list of observable effects (sleeps, UI mutations, store
updates, emitted events) in execution order.

JS `undefined` returned by a bare `return;` is modelled as `none`; an
explicit `return b` for a boolean as `some b`.
-/

namespace WAutoSend

/-- JS `haystack.includes(needle)`: substring containment on the
character sequences. -/
def jsIncludes (haystack needle : String) : Bool :=
  decide (needle.data <:+: haystack.data)

/-- A persisted schedule record, as read by `scheduler.js`.
`contactList` is `none` when the stored field is not an array
(the JS `Array.isArray` guard); `message` covers the JS string field,
with `""` playing the falsy role. -/
structure Schedule where
  id : String
  time : String
  message : String
  useClipboard : Bool
  contactList : Option (List String)
  contactName : Option String
  sent : Bool
  lastSentDate : Option String
deriving DecidableEq, Repr

/-- `scheduler.js` line 293: `Array.isArray(schedule.contactList) ?
schedule.contactList.filter(Boolean) : (schedule.contactName ?
[schedule.contactName] : [])`. -/
def scheduleContacts (s : Schedule) : List String :=
  match s.contactList with
  | some l => l.filter (fun n => n != "")
  | none =>
    match s.contactName with
    | some n => if n == "" then [] else [n]
    | none => []

/-- The connectivity-relevant part of the DOM: whether the element
matched by `[data-testid="alert-phone-disconnected"]` is present. -/
structure DomConn where
  disconnectedBanner : Bool
deriving DecidableEq, Repr

/-- `isWhatsAppConnected` (scheduler.js lines 1531-1534): connected iff
the disconnect banner is absent. -/
def isWhatsAppConnected (d : DomConn) : Bool :=
  !d.disconnectedBanner

/-- `shouldSendMessage` (scheduler.js lines 245-263): early-returns false
when already sent, when the trigger time differs from the current
`HH:MM` string, and when WhatsApp is disconnected; otherwise true. -/
def shouldSendMessage (d : DomConn) (schedule : Schedule) (currentTime : String) : Bool :=
  if schedule.sent then false
  else if schedule.time != currentTime then false
  else if !(isWhatsAppConnected d) then false
  else true

/-! ## Send Verifier (`waitForMessageSent`, scheduler.js lines 940-970) -/

/-- One DOM observation made by a poll iteration of `waitForMessageSent`:
the composer's text content (`none` when `findMessageInputBox` returns
null, in which case the JS code uses `''`), and the text contents of the
outgoing-message candidates matched by
`[data-testid="msg-container"], .message-out, .msg-out`. -/
structure PollState where
  composerContent : Option String
  outgoingTexts : List String
deriving Repr

/-- A run of the verifier: what the DOM shows at the i-th poll. -/
def PollEnv : Type := Nat → PollState

/-- JS `s.trim()`: strip leading and trailing whitespace. -/
def jsTrim (s : String) : String :=
  ⟨((s.data.dropWhile Char.isWhitespace).reverse.dropWhile Char.isWhitespace).reverse⟩

/-- Check 1 of the poll body: `!content.trim()` where
`content = input ? (input.textContent or innerText) : ''` — the content
defaults to the empty string when the composer is absent. -/
def inputClearedAt (ps : PollState) : Bool :=
  (jsTrim (ps.composerContent.getD "") == "")

/-- Check 2 of the poll body: some outgoing-message element whose text
contains `messageText.substring(0, 30)`. -/
def messageFoundAt (ps : PollState) (messageText : String) : Bool :=
  ps.outgoingTexts.any (fun t => jsIncludes t (messageText.take 30))

/-- Both checks of one poll iteration hold simultaneously. -/
def pollHit (polls : PollEnv) (messageText : String) (i : Nat) : Bool :=
  inputClearedAt (polls i) && messageFoundAt (polls i) messageText

/-- The polling loop of `waitForMessageSent`: `i` is the index of the
next poll, the second argument the number of iterations left. -/
def waitForMessageSentGo (polls : PollEnv) (messageText : String) : Nat → Nat → Bool
  | _, 0 => false
  | i, rem + 1 =>
    if pollHit polls messageText i then true
    else waitForMessageSentGo polls messageText (i + 1) rem

/-- `waitForMessageSent` (scheduler.js lines 940-970): 15 polls at a
200 ms interval (3 s budget); true as soon as the composer is clear and
the sent text's 30-character prefix shows up in an outgoing message,
false at timeout. -/
def waitForMessageSent (polls : PollEnv) (messageText : String) : Bool :=
  waitForMessageSentGo polls messageText 0 15

lemma waitForMessageSentGo_eq_true_iff (polls : PollEnv) (messageText : String) :
    ∀ rem i, waitForMessageSentGo polls messageText i rem = true ↔
      ∃ j, j < rem ∧ pollHit polls messageText (i + j) = true := by
  intro rem
  induction rem with
  | zero => intro i; simp [waitForMessageSentGo]
  | succ n ih =>
    intro i
    rw [waitForMessageSentGo]
    by_cases h : pollHit polls messageText i = true
    · simp only [h, if_true, true_iff]
      exact ⟨0, Nat.succ_pos n, by simpa using h⟩
    · simp only [h, if_false, Bool.false_eq_true, ih (i + 1)]
      constructor
      · rintro ⟨j, hj, hhit⟩
        exact ⟨j + 1, Nat.succ_lt_succ hj, by simpa [Nat.add_assoc, Nat.add_comm 1 j] using hhit⟩
      · rintro ⟨j, hj, hhit⟩
        cases j with
        | zero => simp at hhit; exact absurd hhit h
        | succ k =>
          exact ⟨k, Nat.lt_of_succ_lt_succ hj, by
            simpa [Nat.add_assoc, Nat.add_comm 1 k] using hhit⟩

/-- C2: `shouldSendMessage(schedule, currentTime)` returns true iff
`schedule.sent` is false, `schedule.time` equals `currentTime` and the
connectivity heuristic (absence of a disconnect banner) reports
connected; in particular a schedule with `sent = true` is never due. -/
theorem claim2_shouldSendMessage_iff :
    ∀ (d : DomConn) (s : Schedule) (t : String),
      (shouldSendMessage d s t = true ↔
        (s.sent = false ∧ s.time = t ∧ isWhatsAppConnected d = true)) ∧
      (s.sent = true → shouldSendMessage d s t = false) := by
  intro d s t
  constructor
  · unfold shouldSendMessage
    by_cases hs : s.sent <;> by_cases ht : s.time = t <;>
      by_cases hc : isWhatsAppConnected d = true <;>
      simp [hs, ht, hc]
  · intro hs
    unfold shouldSendMessage
    simp [hs]

/-- C2 witness: a concrete schedule that is already sent is not due
again the same day even at its exact trigger time with WhatsApp
connected. -/
theorem claim2_shouldSendMessage_iff_witness :
    shouldSendMessage ⟨false⟩
      ⟨"s1", "14:30", "Hi", false, some [], none, true, some "2025-01-01"⟩
      "14:30" = false :=
  (claim2_shouldSendMessage_iff ⟨false⟩
      ⟨"s1", "14:30", "Hi", false, some [], none, true, some "2025-01-01"⟩
      "14:30").2 rfl

/-- C6: the Send Verifier returns true iff at some one of its 15 polls
the composer is clear and a matching outgoing message (containing the
30-character prefix of the sent text) is visible simultaneously; in
particular, when no poll ever shows a matching outgoing message — even
if the composer clears — it returns false at timeout. -/
theorem claim6_waitForMessageSent_conjunctive :
    ∀ (polls : PollEnv) (messageText : String),
      (waitForMessageSent polls messageText = true ↔
        ∃ i, i < 15 ∧ inputClearedAt (polls i) = true ∧
          messageFoundAt (polls i) messageText = true) ∧
      ((∀ i, i < 15 → messageFoundAt (polls i) messageText = false) →
        waitForMessageSent polls messageText = false) := by
  intro polls messageText
  have hiff : waitForMessageSent polls messageText = true ↔
      ∃ i, i < 15 ∧ inputClearedAt (polls i) = true ∧
        messageFoundAt (polls i) messageText = true := by
    rw [waitForMessageSent, waitForMessageSentGo_eq_true_iff]
    constructor
    · rintro ⟨j, hj, hhit⟩
      rw [pollHit, Bool.and_eq_true] at hhit
      exact ⟨j, by simpa using hj, by simpa using hhit.1, by simpa using hhit.2⟩
    · rintro ⟨i, hi, hclear, hfound⟩
      refine ⟨i, hi, ?_⟩
      rw [pollHit, Bool.and_eq_true]
      exact ⟨by simpa using hclear, by simpa using hfound⟩
  refine ⟨hiff, ?_⟩
  intro hnone
  rcases h : waitForMessageSent polls messageText with _ | _
  · rfl
  · rcases hiff.mp h with ⟨i, hi, _, hfound⟩
    rw [hnone i hi] at hfound
    exact absurd hfound (by simp)

set_option maxRecDepth 4000 in
/-- C6 witness: a run in which the composer is clear at every poll but
the sent text never appears among the outgoing messages times out with
false. -/
theorem claim6_waitForMessageSent_conjunctive_witness :
    waitForMessageSent (fun _ => ⟨some "", ["unrelated"]⟩) "hello world" = false :=
  (claim6_waitForMessageSent_conjunctive (fun _ => ⟨some "", ["unrelated"]⟩)
      "hello world").2 (by decide)

/-! ## Retry Controller (`smartRetry`, scheduler.js lines 978-997) -/

/-- Outcome of one invocation of the retried async operation: it either
resolves to a value or rejects/throws. -/
inductive OpResult (V : Type) : Type
  | val (v : V)
  | thrown
deriving DecidableEq, Repr

/-- The JS backoff between attempt `attempt` and the next:
`Math.min(1000 * Math.pow(2, attempt - 1), 5000)`. -/
def backoffDelay (attempt : Nat) : Nat :=
  min (1000 * 2 ^ (attempt - 1)) 5000

/-- The body of one attempt of `smartRetry`: the `try { const result =
await operation(); if (result) return result; } catch ...` step.  `some
v` when the operation resolved to the truthy `v` (so the loop returns
it), `none` when it resolved falsy or threw. -/
def attemptValue {V : Type} (op : Nat → OpResult V) (truthy : V → Bool)
    (attempt : Nat) : Option V :=
  match op attempt with
  | OpResult.val v => if truthy v then some v else none
  | OpResult.thrown => none

/-- The `for` loop of `smartRetry`: `attempt` is the current 1-based
attempt number, the last argument the number of attempts left
(`maxRetries - attempt + 1`).  Result: `some v` models `return result`
for the first truthy `result`; `none` models falling through the loop
and hitting `return false`.  The list collects the slept backoff delays
in order; none is slept when `attempt = maxRetries` (the
`attempt < maxRetries` guard). -/
def smartRetryGo {V : Type} (op : Nat → OpResult V) (truthy : V → Bool) :
    Nat → Nat → Option V × List Nat
  | _, 0 => (none, [])
  | attempt, 1 =>
    match attemptValue op truthy attempt with
    | some v => (some v, [])
    | none => (none, [])
  | attempt, rem + 2 =>
    match attemptValue op truthy attempt with
    | some v => (some v, [])
    | none =>
      ((smartRetryGo op truthy (attempt + 1) (rem + 1)).1,
        backoffDelay attempt :: (smartRetryGo op truthy (attempt + 1) (rem + 1)).2)

/-- `smartRetry(operation, maxRetries)` (scheduler.js lines 978-997):
attempts 1..maxRetries, returning the first truthy result, sleeping
`backoffDelay attempt` after each failed attempt except the last, and
returning false (modelled `none`) after exhausting all attempts. -/
def smartRetry {V : Type} (op : Nat → OpResult V) (truthy : V → Bool)
    (maxRetries : Nat) : Option V × List Nat :=
  smartRetryGo op truthy 1 maxRetries

/-- The first attempt in `attempt, attempt+1, ...` (at most `rem` of
them) whose operation resolves to a truthy value, with that value. -/
def firstTruthyGo {V : Type} (op : Nat → OpResult V) (truthy : V → Bool) :
    Nat → Nat → Option (Nat × V)
  | _, 0 => none
  | attempt, rem + 1 =>
    match attemptValue op truthy attempt with
    | some v => some (attempt, v)
    | none => firstTruthyGo op truthy (attempt + 1) rem

lemma firstTruthyGo_le {V : Type} (op : Nat → OpResult V) (truthy : V → Bool) :
    ∀ rem attempt j v, firstTruthyGo op truthy attempt rem = some (j, v) →
      attempt ≤ j := by
  intro rem
  induction rem with
  | zero => intro attempt j v h; simp [firstTruthyGo] at h
  | succ n ih =>
    intro attempt j v h
    rw [firstTruthyGo] at h
    rcases hav : attemptValue op truthy attempt with _ | w
    · rw [hav] at h
      exact Nat.le_of_succ_le (ih (attempt + 1) j v h)
    · rw [hav] at h
      simp only [Option.some.injEq, Prod.mk.injEq] at h
      exact Nat.le_of_eq h.1

lemma smartRetryGo_eq {V : Type} (op : Nat → OpResult V) (truthy : V → Bool) :
    ∀ rem attempt,
      smartRetryGo op truthy attempt rem =
        match firstTruthyGo op truthy attempt rem with
        | some (j, v) => (some v, (List.range' attempt (j - attempt)).map backoffDelay)
        | none => (none, (List.range' attempt (rem - 1)).map backoffDelay) := by
  intro rem
  induction rem with
  | zero => intro attempt; simp [smartRetryGo, firstTruthyGo]
  | succ n ih =>
    intro attempt
    cases n with
    | zero =>
      rcases hav : attemptValue op truthy attempt with _ | v <;>
        simp [smartRetryGo, firstTruthyGo, hav]
    | succ n' =>
      rcases hav : attemptValue op truthy attempt with _ | v
      · rw [smartRetryGo, firstTruthyGo, hav]
        rw [ih (attempt + 1)]
        rcases hft : firstTruthyGo op truthy (attempt + 1) (n' + 1) with _ | ⟨j, w⟩
        · simp only [hft]
          rw [Nat.succ_sub_one, Nat.succ_sub_one, List.range'_succ, List.map_cons]
        · have hle := firstTruthyGo_le op truthy _ _ _ _ hft
          simp only [hft]
          have hj : j - attempt = (j - (attempt + 1)) + 1 := by omega
          rw [hj, List.range'_succ, List.map_cons]
      · simp [smartRetryGo, firstTruthyGo, hav]

/-- C5: `smartRetry` returns the first truthy result — with the backoff
sleeps `min(1000·2^(a-1), 5000)` inserted exactly after each of the
failed attempts `1..j-1` preceding the first success `j`, hence none
before the first attempt — or `false` (`none`) after exhausting all
`maxRetries` attempts with sleeps only after attempts `1..maxRetries-1`,
never after the last; with `maxRetries = 3` and an operation that throws
twice then resolves truthy, the induced delays are exactly
`[1000, 2000]` ms and the success value is returned. -/
theorem claim5_smartRetry_backoff :
    ∀ (V : Type) (op : Nat → OpResult V) (truthy : V → Bool) (maxRetries : Nat),
      (∀ j v, firstTruthyGo op truthy 1 maxRetries = some (j, v) →
        smartRetry op truthy maxRetries =
          (some v, (List.range' 1 (j - 1)).map backoffDelay)) ∧
      (firstTruthyGo op truthy 1 maxRetries = none →
        smartRetry op truthy maxRetries =
          (none, (List.range' 1 (maxRetries - 1)).map backoffDelay)) ∧
      (∀ v, truthy v = true →
        smartRetry (fun a => if a ≤ 2 then OpResult.thrown else OpResult.val v)
          truthy 3 = (some v, [1000, 2000])) := by
  intro V op truthy maxRetries
  refine ⟨?_, ?_, ?_⟩
  · intro j v h
    rw [smartRetry, smartRetryGo_eq, h]
  · intro h
    rw [smartRetry, smartRetryGo_eq, h]
  · intro v hv
    simp [smartRetry, smartRetryGo, attemptValue, hv, backoffDelay]

/-- C5 witness: the concrete fails-twice-then-succeeds scenario with
`maxRetries = 3`, at value type `Bool`: delays `[1000, 2000]`, success
value returned. -/
theorem claim5_smartRetry_backoff_witness :
    smartRetry (fun a => if a ≤ 2 then OpResult.thrown else OpResult.val true)
      (fun b => b) 3 = (some true, [1000, 2000]) :=
  (claim5_smartRetry_backoff Bool (fun _ => OpResult.thrown) (fun b => b) 3).2.2
    true rfl

/-! ## Send primitive (`injectAndSendMessage`, scheduler.js lines 735-933) -/

/-- Environment of one `injectAndSendMessage` run: the clock at entry,
whether `findMessageInputBox` finds a composer, whether
`navigator.clipboard.writeText` succeeds, the composer's content as
observed after the paste attempt (method 1) and after the programmatic
insertion (method 2), the DOM observations of the two possible
`waitForMessageSent` runs, whether the character-typing fallback throws,
and the `Date.now()` value taken when a method completes. -/
structure InjectEnv where
  now : Int
  inputBoxFound : Bool
  clipboardWriteOk : Bool
  contentAfterPaste : String
  contentAfterInsert : String
  verifyPolls1 : PollEnv
  verifyPolls2 : PollEnv
  method3Throws : Bool
  doneTime : Int

/-- The scheduler field mutated by the send primitive. -/
structure SendState where
  lastSendTime : Int
deriving DecidableEq, Repr

/-- Observable effects of `injectAndSendMessage`, in order. -/
inductive IEvent : Type
  | cooldownSleep (ms : Int)
  | submitEnter (method : Nat)
  | verifierRun (method : Nat) (ok : Bool)
  | setLastSendTime (t : Int)
deriving DecidableEq, Repr

/-- Return value, method that produced success (1 = clipboard paste,
2 = programmatic insertion, 3 = character typing), final scheduler
state, and effect trace of one `injectAndSendMessage` run. -/
structure InjectOut where
  result : Bool
  successMethod : Option Nat
  state : SendState
  events : List IEvent
deriving DecidableEq, Repr

/-- `injectAndSendMessage(messageText)` (scheduler.js lines 735-933).
Sleeps out the 2-second cooldown remainder, aborts with false when no
composer is found, then tries three strategies in order.  Method 1
(clipboard paste) and method 2 (programmatic insertion) each press Enter
only when the composer content contains the 20-character prefix of the
message, then gate success on `waitForMessageSent`; a failed
verification throws, which the enclosing catch turns into falling
through to the next method.  Method 3 (character typing) presses Enter
and returns true with `lastSendTime` updated, without any verifier
call.  `lastSendTime` is set to the completion-time `Date.now()` only on
the `return true` paths. -/
def injectAndSendMessage (env : InjectEnv) (st : SendState) (msg : String) :
    InjectOut :=
  let cooldownEvs : List IEvent :=
    if env.now - st.lastSendTime < 2000 then
      [IEvent.cooldownSleep (2000 - (env.now - st.lastSendTime))]
    else []
  if env.inputBoxFound = false then
    { result := false, successMethod := none, state := st, events := cooldownEvs }
  else
    let m1Submitted := env.clipboardWriteOk && jsIncludes env.contentAfterPaste (msg.take 20)
    let v1 := waitForMessageSent env.verifyPolls1 msg
    let ev1 : List IEvent :=
      if m1Submitted then [IEvent.submitEnter 1, IEvent.verifierRun 1 v1] else []
    if m1Submitted && v1 then
      { result := true, successMethod := some 1, state := ⟨env.doneTime⟩,
        events := cooldownEvs ++ ev1 ++ [IEvent.setLastSendTime env.doneTime] }
    else
      let m2Submitted := jsIncludes env.contentAfterInsert (msg.take 20)
      let v2 := waitForMessageSent env.verifyPolls2 msg
      let ev2 : List IEvent :=
        if m2Submitted then [IEvent.submitEnter 2, IEvent.verifierRun 2 v2] else []
      if m2Submitted && v2 then
        { result := true, successMethod := some 2, state := ⟨env.doneTime⟩,
          events := cooldownEvs ++ ev1 ++ ev2 ++ [IEvent.setLastSendTime env.doneTime] }
      else if env.method3Throws then
        { result := false, successMethod := none, state := st,
          events := cooldownEvs ++ ev1 ++ ev2 }
      else
        { result := true, successMethod := some 3, state := ⟨env.doneTime⟩,
          events := cooldownEvs ++ ev1 ++ ev2 ++
            [IEvent.submitEnter 3, IEvent.setLastSendTime env.doneTime] }

/-- A concrete run refuting C3 as stated: composer found, clipboard
write succeeds, but neither paste nor programmatic insertion ever makes
the composer contain the message (empty content), so the
character-typing fallback runs. -/
def c3Env : InjectEnv where
  now := 5000
  inputBoxFound := true
  clipboardWriteOk := true
  contentAfterPaste := ""
  contentAfterInsert := ""
  verifyPolls1 := fun _ => ⟨some "x", []⟩
  verifyPolls2 := fun _ => ⟨some "x", []⟩
  method3Throws := false
  doneTime := 7777

/-- C3 counterexample: in the run `c3Env` the character-typing strategy
returns true and updates `lastSendTime` although `waitForMessageSent`
was never invoked for that submit (no `verifierRun` event at all) — and
both verifier environments would in fact report failure.  This refutes
the claim that for every injection strategy success counts only when
the Send Verifier confirmed it. -/
theorem claim3_counterexample :
    (injectAndSendMessage c3Env ⟨0⟩ "hello there").result = true ∧
    (injectAndSendMessage c3Env ⟨0⟩ "hello there").state.lastSendTime = 7777 ∧
    (injectAndSendMessage c3Env ⟨0⟩ "hello there").events =
      [IEvent.submitEnter 3, IEvent.setLastSendTime 7777] ∧
    waitForMessageSent c3Env.verifyPolls1 "hello there" = false ∧
    waitForMessageSent c3Env.verifyPolls2 "hello there" = false := by
  refine ⟨?_, ?_, ?_, ?_, ?_⟩ <;> decide

/-- C3 (amended): only the clipboard-paste and programmatic-insertion
strategies gate success on the Send Verifier: when
`injectAndSendMessage` succeeds via method 1 (resp. 2),
`waitForMessageSent` returned true for that submit and the confirming
verifier run is in the trace; success — via any method — updates
`lastSendTime` to the completion time, failure leaves the state
untouched; and when the character-typing fallback is the success, no
verifier run ever returned true. -/
theorem claim3_verifier_gating :
    ∀ (env : InjectEnv) (st : SendState) (msg : String),
      ((injectAndSendMessage env st msg).successMethod = some 1 →
        waitForMessageSent env.verifyPolls1 msg = true ∧
        IEvent.verifierRun 1 true ∈ (injectAndSendMessage env st msg).events) ∧
      ((injectAndSendMessage env st msg).successMethod = some 2 →
        waitForMessageSent env.verifyPolls2 msg = true ∧
        IEvent.verifierRun 2 true ∈ (injectAndSendMessage env st msg).events) ∧
      ((injectAndSendMessage env st msg).result = true →
        (injectAndSendMessage env st msg).state.lastSendTime = env.doneTime ∧
        IEvent.setLastSendTime env.doneTime ∈ (injectAndSendMessage env st msg).events) ∧
      ((injectAndSendMessage env st msg).result = false →
        (injectAndSendMessage env st msg).state = st) ∧
      ((injectAndSendMessage env st msg).successMethod = some 3 →
        ∀ m, IEvent.verifierRun m true ∉ (injectAndSendMessage env st msg).events) := by
  intro env st msg
  unfold injectAndSendMessage
  by_cases hbox : env.inputBoxFound = false
  · simp [hbox]
  · simp only [hbox, if_false]
    by_cases h1s : (env.clipboardWriteOk && jsIncludes env.contentAfterPaste (msg.take 20)) = true
    · by_cases hv1 : waitForMessageSent env.verifyPolls1 msg = true
      · simp [h1s, hv1]
      · simp only [h1s, hv1, Bool.and_false, if_true, if_false,
          Bool.false_eq_true, Bool.and_self]
        by_cases h2s : jsIncludes env.contentAfterInsert (msg.take 20) = true
        · by_cases hv2 : waitForMessageSent env.verifyPolls2 msg = true
          · simp [h2s, hv2, hv1]
          · simp only [h2s, hv2, Bool.and_false, if_false, Bool.false_eq_true, if_true]
            by_cases h3 : env.method3Throws = true
            · simp [h3, hv1, hv2]
            · simp [h3, hv1, hv2, h1s]
        · simp only [h2s, Bool.false_and, if_false, Bool.false_eq_true]
          by_cases h3 : env.method3Throws = true
          · simp [h3, hv1]
          · simp [h3, hv1, h2s]
    · simp only [h1s, if_false, Bool.false_eq_true]
      by_cases h2s : jsIncludes env.contentAfterInsert (msg.take 20) = true
      · by_cases hv2 : waitForMessageSent env.verifyPolls2 msg = true
        · simp [h2s, hv2, h1s]
        · simp only [h2s, hv2, Bool.and_false, if_false, Bool.false_eq_true, if_true]
          by_cases h3 : env.method3Throws = true
          · simp [h3, h1s]
          · simp [h3, h1s, h2s]
      · simp only [h2s, Bool.false_and, if_false, Bool.false_eq_true]
        by_cases h3 : env.method3Throws = true
        · simp [h3, h1s]
        · simp [h3, h1s, h2s]

/-- A run in which the clipboard-paste strategy succeeds: the paste
leaves the message in the composer, and the verifier sees the composer
clear with the message visible among outgoing messages. -/
def c3OkEnv : InjectEnv where
  now := 5000
  inputBoxFound := true
  clipboardWriteOk := true
  contentAfterPaste := "hi"
  contentAfterInsert := ""
  verifyPolls1 := fun _ => ⟨some " ", ["hi"]⟩
  verifyPolls2 := fun _ => ⟨some "x", []⟩
  method3Throws := false
  doneTime := 9999

set_option maxRecDepth 4000 in
/-- C3 witness: in the run `c3OkEnv` the clipboard-paste strategy is
the success, and indeed the verifier confirmed it. -/
theorem claim3_verifier_gating_witness :
    waitForMessageSent c3OkEnv.verifyPolls1 "hi" = true ∧
    IEvent.verifierRun 1 true ∈ (injectAndSendMessage c3OkEnv ⟨0⟩ "hi").events :=
  (claim3_verifier_gating c3OkEnv ⟨0⟩ "hi").1 (by decide)

/-! ## Delivery Orchestrator (`sendScheduledMessage` lines 267-356 and
`sendToTargets` lines 363-401 of scheduler.js)

The awaited sub-operations are abstracted by an environment: `openOk i`
is the boolean the (retried) `openChat` call for the i-th target
resolves to, `sendOk i` the boolean the (retried) `injectAndSendMessage`
call for the i-th target resolves to (`sendOk 0` doubling for the
current-chat branch), and `clipboardText` the outcome of
`navigator.clipboard.readText()` (`none` models a rejection, which
`getClipboardText` turns into `''`). -/

/-- Environment of one orchestration pass. -/
structure OrchEnv where
  clipboardText : Option String
  openOk : Nat → Bool
  sendOk : Nat → Bool

/-- The settings fields read during a pass. -/
structure OrchSettings where
  sendDelay : Nat
  autoRetry : Bool
deriving DecidableEq, Repr

/-- The scheduler field guarding deliveries. -/
structure SState where
  isSending : Bool
deriving DecidableEq, Repr

/-- Observable effects of an orchestration pass, in order. -/
inductive OEvent : Type
  | clipboardRead
  | openChatTry (name : String)
  | settleSleep (ms : Nat)
  | injectSendRun (msg : String) (ok : Bool)
  | interTargetSleep (ms : Nat)
  | markSent (id : String)
  | notifyMessageSent (id : String)
  | postSendAction
deriving DecidableEq, Repr

/-- `getClipboardText` (scheduler.js lines 1518-1525): clipboard text,
or `''` when the read throws. -/
def getClipboardText (env : OrchEnv) : String :=
  env.clipboardText.getD ""

/-- The per-target loop shared by `sendScheduledMessage` (settle 300 ms,
smart-retried calls) and `sendToTargets` (settle 250 ms): open the chat
for each target in listed order; on a failed open `continue` skips the
settle sleep, the injection and the inter-target delay; otherwise
settle, inject+send, OR the outcome into the running success flag and
sleep `sendDelay` unless this is the last target. -/
def targetsLoop (env : OrchEnv) (settleMs sendDelay : Nat) (msg : String) :
    Nat → List String → Bool × List OEvent
  | _, [] => (false, [])
  | i, name :: rest =>
    if env.openOk i = false then
      ((targetsLoop env settleMs sendDelay msg (i + 1) rest).1,
        OEvent.openChatTry name :: (targetsLoop env settleMs sendDelay msg (i + 1) rest).2)
    else
      ((env.sendOk i || (targetsLoop env settleMs sendDelay msg (i + 1) rest).1),
        OEvent.openChatTry name :: OEvent.settleSleep settleMs ::
          OEvent.injectSendRun msg (env.sendOk i) ::
          ((if rest.isEmpty then [] else [OEvent.interTargetSleep sendDelay]) ++
            (targetsLoop env settleMs sendDelay msg (i + 1) rest).2))

/-- `sendScheduledMessage(schedule)` (scheduler.js lines 267-356).
Always resolves to JS `undefined` (`none`): every `return` in it is
bare.  Guarded by `isSending`; resolves the message text (clipboard
fallback when empty and enabled); aborts when still empty; sends to the
contact list, or to the current chat when none; on overall success marks
the schedule sent in the store, notifies the UI and runs the post-send
action.  The `finally` clears `isSending`, so the final state always has
it false in the non-guarded branch. -/
def sendScheduledMessage (env : OrchEnv) (settings : OrchSettings)
    (schedule : Schedule) (st : SState) : Option Bool × SState × List OEvent :=
  if st.isSending then (none, st, [])
  else
    let readsClipboard := schedule.message == "" && schedule.useClipboard
    let messageText :=
      if schedule.message == "" && schedule.useClipboard then getClipboardText env
      else schedule.message
    let clipEvs : List OEvent := if readsClipboard then [OEvent.clipboardRead] else []
    if messageText == "" then (none, ⟨false⟩, clipEvs)
    else
      let contacts := scheduleContacts schedule
      let run : Bool × List OEvent :=
        if contacts.isEmpty then
          (env.sendOk 0, [OEvent.injectSendRun messageText (env.sendOk 0)])
        else targetsLoop env 300 settings.sendDelay messageText 0 contacts
      let post : List OEvent :=
        if run.1 then
          [OEvent.markSent schedule.id, OEvent.notifyMessageSent schedule.id,
            OEvent.postSendAction]
        else []
      (none, ⟨false⟩, clipEvs ++ run.2 ++ post)

/-- `sendToTargets(messageText, contacts)` (scheduler.js lines 363-401):
the manual-send twin of the orchestrator.  Returns `false` immediately
when a send is in flight; otherwise filters the targets, runs the same
per-target loop (settle 250 ms), runs the post-send action on success
and returns the accumulated success flag. -/
def sendToTargets (env : OrchEnv) (settings : OrchSettings) (msg : String)
    (contacts : Option (List String)) (st : SState) :
    Option Bool × SState × List OEvent :=
  if st.isSending then (some false, st, [])
  else
    let targets := (contacts.getD []).filter (fun n => n != "")
    let run : Bool × List OEvent :=
      if targets.isEmpty then
        (env.sendOk 0, [OEvent.injectSendRun msg (env.sendOk 0)])
      else targetsLoop env 250 settings.sendDelay msg 0 targets
    let post : List OEvent := if run.1 then [OEvent.postSendAction] else []
    (some run.1, ⟨false⟩, run.2 ++ post)

/-- C1 counterexample: with the send-in-progress flag set,
`sendScheduledMessage` is rejected with JS `undefined` (a bare
`return;`), not with `false` — refuting the claim that every rejected
invocation of either entry point returns false. -/
theorem claim1_counterexample :
    (sendScheduledMessage ⟨none, fun _ => true, fun _ => true⟩ ⟨3000, true⟩
        ⟨"s1", "14:30", "Hi", false, some ["Alice"], none, false, none⟩
        ⟨true⟩).1 ≠ some false ∧
    (sendScheduledMessage ⟨none, fun _ => true, fun _ => true⟩ ⟨3000, true⟩
        ⟨"s1", "14:30", "Hi", false, some ["Alice"], none, false, none⟩
        ⟨true⟩).1 = none := by
  constructor <;> decide

/-- C1 (amended): an invocation of `sendScheduledMessage` or
`sendToTargets` made while the send-in-progress flag is set is rejected
immediately — `sendToTargets` returns false, `sendScheduledMessage`
returns undefined — with no UI mutation, no store update, no emitted
event (empty effect trace) and an unchanged state, so the request is
never queued. -/
theorem claim1_send_in_progress_guard :
    ∀ (env : OrchEnv) (settings : OrchSettings) (schedule : Schedule)
      (msg : String) (contacts : Option (List String)) (st : SState),
      st.isSending = true →
      sendScheduledMessage env settings schedule st = (none, st, []) ∧
      sendToTargets env settings msg contacts st = (some false, st, []) := by
  intro env settings schedule msg contacts st h
  constructor
  · unfold sendScheduledMessage
    rw [h]
    simp
  · unfold sendToTargets
    rw [h]
    simp

/-- C1 witness: a concrete rejected pair of invocations while a send is
in flight. -/
theorem claim1_send_in_progress_guard_witness :
    sendScheduledMessage ⟨some "clip", fun _ => true, fun _ => false⟩ ⟨3000, true⟩
      ⟨"s2", "09:00", "Ping", false, some ["Alice", "Bob"], none, false, none⟩
      ⟨true⟩ = (none, ⟨true⟩, []) ∧
    sendToTargets ⟨some "clip", fun _ => true, fun _ => false⟩ ⟨3000, true⟩
      "Ping" (some ["Alice"]) ⟨true⟩ = (some false, ⟨true⟩, []) :=
  claim1_send_in_progress_guard ⟨some "clip", fun _ => true, fun _ => false⟩
    ⟨3000, true⟩ ⟨"s2", "09:00", "Ping", false, some ["Alice", "Bob"], none, false, none⟩
    "Ping" (some ["Alice"]) ⟨true⟩ rfl

/-- C4: a schedule whose message is empty and whose clipboard fallback
is disabled — or whose clipboard read yields an empty string or throws —
is aborted before any UI mutation: the only possible effect is the
clipboard read itself; in particular no chat is opened, nothing is
injected or submitted, and the schedule is not marked sent. -/
theorem claim4_empty_message_abort :
    ∀ (env : OrchEnv) (settings : OrchSettings) (schedule : Schedule) (st : SState),
      st.isSending = false →
      schedule.message = "" →
      (schedule.useClipboard = false ∨ getClipboardText env = "") →
      (sendScheduledMessage env settings schedule st).1 = none ∧
      ∀ e ∈ (sendScheduledMessage env settings schedule st).2.2,
        e = OEvent.clipboardRead := by
  intro env settings schedule st hst hmsg hclip
  unfold sendScheduledMessage
  rw [hst]
  simp only [Bool.false_eq_true, if_false]
  have hmsgb : (schedule.message == "") = true := by simp [hmsg]
  rcases hclip with hcb | hct
  · rw [hmsgb, hcb]
    simp [hmsg]
  · rw [hmsgb, hct]
    by_cases hub : schedule.useClipboard = true <;> simp [hub, hmsg]

/-- C4 witness: a concrete empty-message schedule with the clipboard
fallback disabled is aborted with at most a clipboard-read effect. -/
theorem claim4_empty_message_abort_witness :
    (sendScheduledMessage ⟨some "clip", fun _ => true, fun _ => true⟩ ⟨3000, true⟩
        ⟨"s3", "10:00", "", false, some ["Alice"], none, false, none⟩ ⟨false⟩).1 = none ∧
    ∀ e ∈ (sendScheduledMessage ⟨some "clip", fun _ => true, fun _ => true⟩ ⟨3000, true⟩
        ⟨"s3", "10:00", "", false, some ["Alice"], none, false, none⟩ ⟨false⟩).2.2,
      e = OEvent.clipboardRead :=
  claim4_empty_message_abort ⟨some "clip", fun _ => true, fun _ => true⟩ ⟨3000, true⟩
    ⟨"s3", "10:00", "", false, some ["Alice"], none, false, none⟩ ⟨false⟩
    rfl rfl (Or.inl rfl)

/-- Names of the Conversation Switcher invocations in a trace, in
order. -/
def openNames (evs : List OEvent) : List String :=
  evs.filterMap (fun e =>
    match e with
    | OEvent.openChatTry n => some n
    | _ => none)

/-- Store updates among the orchestrator's effects. -/
def isStoreUpdate (e : OEvent) : Bool :=
  match e with
  | OEvent.markSent _ => true
  | _ => false

lemma targetsLoop_openNames (env : OrchEnv) (settleMs sendDelay : Nat) (msg : String) :
    ∀ (targets : List String) (i : Nat),
      openNames (targetsLoop env settleMs sendDelay msg i targets).2 = targets := by
  intro targets
  induction targets with
  | nil => intro i; simp [targetsLoop, openNames]
  | cons name rest ih =>
    intro i
    by_cases ho : env.openOk i = false
    · simp [targetsLoop, ho, openNames, List.filterMap_append] at ih ⊢
      exact ih (i + 1)
    · by_cases hr : rest.isEmpty <;>
        simp [targetsLoop, ho, hr, openNames, List.filterMap_append] at ih ⊢ <;>
        exact ih (i + 1)

lemma targetsLoop_success (env : OrchEnv) (settleMs sendDelay : Nat) (msg : String) :
    ∀ (targets : List String) (i : Nat),
      (targetsLoop env settleMs sendDelay msg i targets).1 =
        (List.range' i targets.length).any (fun j => env.openOk j && env.sendOk j) := by
  intro targets
  induction targets with
  | nil => intro i; simp [targetsLoop]
  | cons name rest ih =>
    intro i
    simp only [List.length_cons, List.range'_succ]
    by_cases ho : env.openOk i = false
    · simp [targetsLoop, ho, ih (i + 1)]
    · have ho' : env.openOk i = true := by
        revert ho; cases env.openOk i <;> simp
      simp [targetsLoop, ho', ih (i + 1)]

/-- Recognizer for the inter-target delay event. -/
def isInterTargetSleep (d : Nat) : OEvent → Bool
  | OEvent.interTargetSleep m => m == d
  | _ => false

/-- Number of inter-target delay sleeps in a trace. -/
def interSleepCount (d : Nat) (evs : List OEvent) : Nat :=
  (evs.filter (isInterTargetSleep d)).length

lemma targetsLoop_count (env : OrchEnv) (settleMs sendDelay : Nat) (msg : String) :
    ∀ (targets : List String) (i : Nat),
      interSleepCount sendDelay (targetsLoop env settleMs sendDelay msg i targets).2 =
        ((List.range' i (targets.length - 1)).filter (fun j => env.openOk j)).length := by
  intro targets
  induction targets with
  | nil => intro i; simp [targetsLoop, interSleepCount]
  | cons name rest ih =>
    intro i
    cases rest with
    | nil =>
      by_cases ho : env.openOk i = false <;>
        simp [targetsLoop, ho, interSleepCount, isInterTargetSleep, List.filter]
    | cons b rest' =>
      have hlen : (name :: b :: rest').length - 1 = rest'.length + 1 := by simp
      rw [hlen, List.range'_succ]
      have hih := ih (i + 1)
      have hlen' : (b :: rest').length - 1 = rest'.length := by simp
      rw [hlen'] at hih
      simp only [interSleepCount] at hih
      rw [targetsLoop]
      by_cases ho : env.openOk i = false
      · rw [if_pos ho]
        simp only [interSleepCount, List.filter_cons, isInterTargetSleep, ho,
          Bool.false_eq_true, if_false]
        exact hih
      · rw [if_neg ho]
        have ho' : env.openOk i = true := by
          revert ho; cases env.openOk i <;> simp
        simp only [interSleepCount, List.isEmpty_cons, Bool.false_eq_true, if_false,
          List.singleton_append, List.nil_append, List.filter_cons, List.filter_append,
          isInterTargetSleep, beq_self_eq_true, if_true, ho', List.length_cons,
          List.length_append]
        rw [hih]

lemma targetsLoop_ne_nil (env : OrchEnv) (settleMs sendDelay : Nat) (msg : String)
    (name : String) (rest : List String) (i : Nat) :
    (targetsLoop env settleMs sendDelay msg i (name :: rest)).2 ≠ [] := by
  by_cases ho : env.openOk i = false <;> simp [targetsLoop, ho]

lemma targetsLoop_getLast (env : OrchEnv) (settleMs sendDelay : Nat) (msg : String) :
    ∀ (targets : List String) (i : Nat), targets ≠ [] →
      ((targetsLoop env settleMs sendDelay msg i targets).2).getLast? ≠
        some (OEvent.interTargetSleep sendDelay) := by
  intro targets
  induction targets with
  | nil => intro i h; exact absurd rfl h
  | cons name rest ih =>
    intro i _
    cases rest with
    | nil =>
      by_cases ho : env.openOk i = false <;>
        simp [targetsLoop, ho, List.getLast?]
    | cons b rest' =>
      have hne : (targetsLoop env settleMs sendDelay msg (i + 1) (b :: rest')).2 ≠ [] :=
        targetsLoop_ne_nil env settleMs sendDelay msg b rest' (i + 1)
      have hlast := ih (i + 1) (by simp)
      rcases List.exists_cons_of_ne_nil hne with ⟨e, tl, heq⟩
      rw [heq] at hlast
      rw [targetsLoop]
      by_cases ho : env.openOk i = false
      · rw [if_pos ho]
        dsimp only
        rw [heq, List.getLast?_cons_cons]
        exact hlast
      · rw [if_neg ho]
        dsimp only
        rw [heq]
        simp only [List.isEmpty_cons, Bool.false_eq_true, if_false,
          List.singleton_append, List.cons_append, List.nil_append]
        rw [List.getLast?_cons_cons, List.getLast?_cons_cons,
          List.getLast?_cons_cons, List.getLast?_cons_cons]
        exact hlast

lemma targetsLoop_no_store (env : OrchEnv) (settleMs sendDelay : Nat) (msg : String) :
    ∀ (targets : List String) (i : Nat),
      ∀ e ∈ (targetsLoop env settleMs sendDelay msg i targets).2,
        isStoreUpdate e = false := by
  intro targets
  induction targets with
  | nil => intro i e he; simp [targetsLoop] at he
  | cons name rest ih =>
    intro i e he
    by_cases ho : env.openOk i = false
    · simp only [targetsLoop, ho, if_true, List.mem_cons] at he
      rcases he with rfl | he
      · rfl
      · exact ih (i + 1) e he
    · rw [targetsLoop, if_neg ho] at he
      dsimp only at he
      simp only [List.mem_cons, List.mem_append] at he
      rcases he with rfl | rfl | rfl | he | he
      · rfl
      · rfl
      · rfl
      · by_cases hr : rest.isEmpty = true
        · rw [if_pos hr] at he
          simp at he
        · rw [if_neg hr] at he
          simp only [List.mem_singleton] at he
          subst he
          rfl
      · exact ih (i + 1) e he

/-- Environment refuting C7: opening the chat for the first of two
targets fails. -/
def c7Env : OrchEnv where
  clipboardText := none
  openOk := fun i => i == 1
  sendOk := fun _ => true

/-- C7 counterexample: with targets `["Alice", "Bob"]` and the chat for
"Alice" failing to open, the loop invokes the switcher for both targets
in order but — because the failed target is skipped with `continue` —
inserts no `sendDelayMs` sleep at all between the two consecutive
targets, refuting the claim that the inter-send delay is inserted
strictly between consecutive targets. -/
theorem claim7_counterexample :
    openNames (sendToTargets c7Env ⟨5000, true⟩ "Ping" (some ["Alice", "Bob"])
        ⟨false⟩).2.2 = ["Alice", "Bob"] ∧
    (sendToTargets c7Env ⟨5000, true⟩ "Ping" (some ["Alice", "Bob"]) ⟨false⟩).2.2 =
      [OEvent.openChatTry "Alice", OEvent.openChatTry "Bob", OEvent.settleSleep 250,
        OEvent.injectSendRun "Ping" true, OEvent.postSendAction] ∧
    interSleepCount 5000 (sendToTargets c7Env ⟨5000, true⟩ "Ping"
        (some ["Alice", "Bob"]) ⟨false⟩).2.2 = 0 := by
  refine ⟨?_, ?_, ?_⟩ <;> decide

/-- C7 (amended): for a non-empty target list (of non-empty names) the
orchestrator invokes the Conversation Switcher for every target in
listed order, returns the logical OR of the per-target results, and
inserts the `sendDelayMs` delay only between consecutive targets —
once after each non-final target whose chat opened (a target whose chat
fails to open is skipped without the delay) — and never after the last
target. -/
theorem claim7_targets_in_order :
    ∀ (env : OrchEnv) (settings : OrchSettings) (msg : String)
      (targets : List String) (st : SState),
      st.isSending = false → targets ≠ [] → (∀ n ∈ targets, (n != "") = true) →
      openNames (sendToTargets env settings msg (some targets) st).2.2 = targets ∧
      (sendToTargets env settings msg (some targets) st).1 =
        some ((List.range targets.length).any (fun j => env.openOk j && env.sendOk j)) ∧
      interSleepCount settings.sendDelay
          (sendToTargets env settings msg (some targets) st).2.2 =
        ((List.range (targets.length - 1)).filter (fun j => env.openOk j)).length ∧
      (targetsLoop env 250 settings.sendDelay msg 0 targets).2.getLast? ≠
        some (OEvent.interTargetSleep settings.sendDelay) := by
  intro env settings msg targets st hst hne hnames
  have hfilter : targets.filter (fun n => n != "") = targets :=
    List.filter_eq_self.mpr hnames
  have hempty : targets.isEmpty = false := by
    cases targets with
    | nil => exact absurd rfl hne
    | cons a l => rfl
  unfold sendToTargets
  rw [hst]
  simp only [Bool.false_eq_true, if_false, Option.getD_some, hfilter, hempty]
  refine ⟨?_, ?_, ?_, targetsLoop_getLast env 250 settings.sendDelay msg targets 0 hne⟩
  · rw [targetsLoop_success]
    by_cases hsucc : (List.range' 0 targets.length).any
        (fun j => env.openOk j && env.sendOk j) = true
    · simp only [openNames, List.filterMap_append, hsucc, if_true]
      simp only [List.filterMap_cons, List.filterMap_nil, List.append_nil]
      exact targetsLoop_openNames env 250 settings.sendDelay msg targets 0
    · simp only [openNames, List.filterMap_append, hsucc, Bool.false_eq_true,
        if_false, List.filterMap_nil, List.append_nil]
      exact targetsLoop_openNames env 250 settings.sendDelay msg targets 0
  · rw [targetsLoop_success, List.range_eq_range']
  · rw [targetsLoop_success]
    by_cases hsucc : (List.range' 0 targets.length).any
        (fun j => env.openOk j && env.sendOk j) = true
    · simp only [hsucc, if_true, interSleepCount, List.filter_append,
        List.length_append, List.filter_cons, List.filter_nil, isInterTargetSleep,
        List.length_nil, Nat.add_zero]
      rw [List.range_eq_range']
      exact targetsLoop_count env 250 settings.sendDelay msg targets 0
    · simp only [hsucc, Bool.false_eq_true, if_false, List.append_nil]
      rw [List.range_eq_range']
      exact targetsLoop_count env 250 settings.sendDelay msg targets 0

/-- C7 witness: the spec's scenario — targets `["Alice", "Bob"]`, both
chats opening and sending — has the switcher invoked for Alice then
Bob, overall success, exactly one inter-target delay (between the two),
and no delay after the last target. -/
theorem claim7_targets_in_order_witness :
    openNames (sendToTargets ⟨none, fun _ => true, fun _ => true⟩ ⟨3000, true⟩
        "Ping" (some ["Alice", "Bob"]) ⟨false⟩).2.2 = ["Alice", "Bob"] ∧
    (sendToTargets ⟨none, fun _ => true, fun _ => true⟩ ⟨3000, true⟩
        "Ping" (some ["Alice", "Bob"]) ⟨false⟩).1 =
      some ((List.range 2).any (fun _ => true && true)) ∧
    interSleepCount 3000 (sendToTargets ⟨none, fun _ => true, fun _ => true⟩
        ⟨3000, true⟩ "Ping" (some ["Alice", "Bob"]) ⟨false⟩).2.2 =
      ((List.range 1).filter (fun _ => true)).length ∧
    (targetsLoop ⟨none, fun _ => true, fun _ => true⟩ 250 3000 "Ping" 0
        ["Alice", "Bob"]).2.getLast? ≠ some (OEvent.interTargetSleep 3000) :=
  claim7_targets_in_order ⟨none, fun _ => true, fun _ => true⟩ ⟨3000, true⟩
    "Ping" ["Alice", "Bob"] ⟨false⟩ rfl (by simp) (by decide)

/-- The `findIndex` + in-place merge of `updateSchedule` (storage
module, src/debug.js lines 627-641): patch the first schedule whose id
matches (`schedules[scheduleIndex] = { ...schedules[scheduleIndex],
...updates }`), `none` when `findIndex` returns -1. -/
def updateScheduleList (patch : Schedule → Schedule) (id : String) :
    List Schedule → Option (List Schedule)
  | [] => none
  | s :: rest =>
    if s.id == id then some (patch s :: rest)
    else
      match updateScheduleList patch id rest with
      | some rest' => some (s :: rest')
      | none => none

/-- `updateSchedule(id, updates)` (storage module, src/debug.js lines
627-641): when the id is found, merge the updates and save the whole
list, returning `saveSchedules`' success flag; when the id is missing,
return false without saving.  `saveOk` abstracts the outcome of
`saveSchedules` (false when chrome.storage is unavailable, the
extension context is invalidated, or the write throws — in which case
the persisted list stays unchanged). -/
def updateSchedule (saveOk : Bool) (schedules : List Schedule) (id : String)
    (patch : Schedule → Schedule) : Bool × List Schedule :=
  match updateScheduleList patch id schedules with
  | some updated => (saveOk, if saveOk then updated else schedules)
  | none => (false, schedules)

/-- `markScheduleSent(id)` (storage module, src/debug.js lines
648-654): `updateSchedule(id, { sent: true, lastSentDate: today })`
with `today = new Date().toDateString()`; returns false when the id is
missing or the store write fails. -/
def markScheduleSent (saveOk : Bool) (today : String)
    (schedules : List Schedule) (id : String) : Bool × List Schedule :=
  updateSchedule saveOk schedules id
    (fun s => { s with sent := true, lastSentDate := some today })

lemma updateScheduleList_found (patch : Schedule → Schedule) (id : String) :
    ∀ (pre : List Schedule) (post : List Schedule) (s : Schedule),
      (∀ p ∈ pre, (p.id == id) = false) → s.id = id →
      updateScheduleList patch id (pre ++ s :: post) =
        some (pre ++ patch s :: post) := by
  intro pre
  induction pre with
  | nil =>
    intro post s _ hs
    simp [updateScheduleList, hs]
  | cons p rest ih =>
    intro post s hpre hs
    have hp : (p.id == id) = false := hpre p (List.mem_cons_self p rest)
    simp only [List.cons_append, updateScheduleList, hp, Bool.false_eq_true,
      if_false, List.append_eq]
    rw [ih post s (fun q hq => hpre q (List.mem_cons_of_mem p hq)) hs]

lemma updateScheduleList_missing (patch : Schedule → Schedule) (id : String) :
    ∀ (schedules : List Schedule),
      (∀ s ∈ schedules, (s.id == id) = false) →
      updateScheduleList patch id schedules = none := by
  intro schedules
  induction schedules with
  | nil => intro _; rfl
  | cons s rest ih =>
    intro hall
    have hs : (s.id == id) = false := hall s (List.mem_cons_self s rest)
    simp only [updateScheduleList, hs, Bool.false_eq_true, if_false]
    rw [ih (fun q hq => hall q (List.mem_cons_of_mem s hq))]

/-- C10 (implicit): for a schedule with multiple targets, as soon as at
least one target delivery succeeds — whatever happens to the others —
the orchestrator invokes the store's mark-sent call and emits the
`messageSent` notification, recording no per-target failure (the only
store update in the trace is the mark-sent call); the store's
`markScheduleSent` then marks the stored record sent for the current
date (given its id is stored and the store write succeeds — it returns
false without marking when the write fails), and the marked record is
no longer due at any later time of the same day, so failed targets are
never retried. -/
theorem claim10_partial_success_marks_sent :
    ∀ (env : OrchEnv) (settings : OrchSettings) (schedule : Schedule) (st : SState)
      (d : DomConn) (today t : String) (pre post : List Schedule),
      st.isSending = false →
      schedule.message ≠ "" →
      2 ≤ (scheduleContacts schedule).length →
      (∃ i, i < (scheduleContacts schedule).length ∧
        env.openOk i = true ∧ env.sendOk i = true) →
      (∀ p ∈ pre, (p.id == schedule.id) = false) →
      OEvent.markSent schedule.id ∈ (sendScheduledMessage env settings schedule st).2.2 ∧
      OEvent.notifyMessageSent schedule.id ∈
        (sendScheduledMessage env settings schedule st).2.2 ∧
      (∀ e ∈ (sendScheduledMessage env settings schedule st).2.2,
        isStoreUpdate e = true → e = OEvent.markSent schedule.id) ∧
      markScheduleSent true today (pre ++ schedule :: post) schedule.id =
        (true, pre ++ { schedule with sent := true, lastSentDate := some today } :: post) ∧
      shouldSendMessage d { schedule with sent := true, lastSentDate := some today }
        t = false ∧
      (markScheduleSent false today (pre ++ schedule :: post) schedule.id).1 = false := by
  intro env settings schedule st d today t pre post hst hmsg hlen hex hpre
  have hmsgb : (schedule.message == "") = false := by
    simp [hmsg]
  have hempty : (scheduleContacts schedule).isEmpty = false := by
    cases hc : scheduleContacts schedule with
    | nil => rw [hc] at hlen; simp at hlen
    | cons a l => rfl
  have hsucc : (targetsLoop env 300 settings.sendDelay schedule.message 0
      (scheduleContacts schedule)).1 = true := by
    rw [targetsLoop_success, ← List.range_eq_range', List.any_eq_true]
    rcases hex with ⟨i, hi, hoi, hsi⟩
    exact ⟨i, List.mem_range.mpr hi, by simp [hoi, hsi]⟩
  unfold sendScheduledMessage
  rw [hst]
  simp only [Bool.false_eq_true, if_false, hmsgb, Bool.false_and, hempty, hsucc,
    if_true]
  refine ⟨?_, ?_, ?_, ?_, ?_, ?_⟩
  · simp [hmsg]
  · simp [hmsg]
  · intro e he hstore
    simp only [hmsg, if_neg, List.mem_append] at he
    have he' : e ∈ (targetsLoop env 300 settings.sendDelay schedule.message 0
        (scheduleContacts schedule)).2 ∨
        e ∈ [OEvent.markSent schedule.id, OEvent.notifyMessageSent schedule.id,
          OEvent.postSendAction] := by
      simpa [hmsg] using he
    rcases he' with he' | he'
    · rw [targetsLoop_no_store env 300 settings.sendDelay schedule.message
        (scheduleContacts schedule) 0 e he'] at hstore
      exact absurd hstore (by simp)
    · simp only [List.mem_cons, List.not_mem_nil, or_false] at he'
      rcases he' with rfl | rfl | rfl
      · rfl
      · exact absurd hstore (by simp [isStoreUpdate])
      · exact absurd hstore (by simp [isStoreUpdate])
  · unfold markScheduleSent updateSchedule
    rw [updateScheduleList_found _ _ pre post schedule hpre rfl]
    simp
  · simp [shouldSendMessage]
  · unfold markScheduleSent updateSchedule
    rw [updateScheduleList_found _ _ pre post schedule hpre rfl]

/-- C10 witness: two targets, the first failing to open, the second
succeeding — the mark-sent call and the notification are emitted, the
mark-sent call is the only store update, the store (holding just this
schedule) marks the record sent for the day on a successful write and
returns false on a failed one, and the marked record is not due again
the same day. -/
theorem claim10_partial_success_marks_sent_witness :
    OEvent.markSent "s9" ∈ (sendScheduledMessage c7Env ⟨3000, true⟩
        ⟨"s9", "09:00", "Ping", false, some ["Alice", "Bob"], none, false, none⟩
        ⟨false⟩).2.2 ∧
    OEvent.notifyMessageSent "s9" ∈ (sendScheduledMessage c7Env ⟨3000, true⟩
        ⟨"s9", "09:00", "Ping", false, some ["Alice", "Bob"], none, false, none⟩
        ⟨false⟩).2.2 ∧
    (∀ e ∈ (sendScheduledMessage c7Env ⟨3000, true⟩
        ⟨"s9", "09:00", "Ping", false, some ["Alice", "Bob"], none, false, none⟩
        ⟨false⟩).2.2, isStoreUpdate e = true → e = OEvent.markSent "s9") ∧
    markScheduleSent true "2025-01-01"
        [⟨"s9", "09:00", "Ping", false, some ["Alice", "Bob"], none, false, none⟩]
        "s9" =
      (true, [⟨"s9", "09:00", "Ping", false, some ["Alice", "Bob"], none, true,
        some "2025-01-01"⟩]) ∧
    shouldSendMessage ⟨false⟩
      ⟨"s9", "09:00", "Ping", false, some ["Alice", "Bob"], none, true,
        some "2025-01-01"⟩ "09:00" = false ∧
    (markScheduleSent false "2025-01-01"
        [⟨"s9", "09:00", "Ping", false, some ["Alice", "Bob"], none, false, none⟩]
        "s9").1 = false :=
  claim10_partial_success_marks_sent c7Env ⟨3000, true⟩
    ⟨"s9", "09:00", "Ping", false, some ["Alice", "Bob"], none, false, none⟩
    ⟨false⟩ ⟨false⟩ "2025-01-01" "09:00" [] [] rfl (by decide) (by decide)
    ⟨1, by decide, by decide, by decide⟩ (by simp)

/-! ## Scheduler tick (`checkSchedules`, scheduler.js lines 139-212)

The per-schedule try-body (the `Sending: ...` status, the awaited
`sendScheduledMessage` call and the optional settle sleep) is abstracted
by `deliver : Nat → Option String`: `none` when the body for the i-th
pending schedule completes, `some err` when it throws `err` somewhere —
in which case the enclosing catch reports the error and the loop
continues with the next schedule, skipping the rest of that body
(including its settle sleep). -/

/-- Environment of one tick: the fetched schedules, the `HH:MM` clock
string, the connectivity-relevant DOM, and the per-schedule body
outcomes. -/
structure TickEnv where
  schedules : List Schedule
  currentTime : String
  dom : DomConn
  deliver : Nat → Option String

/-- Observable effects of the tick's delivery loop, in order. -/
inductive TEvent : Type
  | statusWorking
  | delivered (id : String)
  | betweenSleep (ms : Nat)
  | errorStatus (id : String) (err : String)
deriving DecidableEq, Repr

/-- The due subset computed by the tick:
`schedules.filter(schedule => this.shouldSendMessage(schedule, currentTime))`. -/
def duePending (tenv : TickEnv) : List Schedule :=
  tenv.schedules.filter (fun s => shouldSendMessage tenv.dom s tenv.currentTime)

/-- The `for (const schedule of pendingSchedules)` loop: on a completed
body, the delivery plus — whenever more than one schedule is due in the
tick (`pendingSchedules.length > 1`) — the 3-second settle sleep; on a
thrown body, only the caught error's status report. -/
def tickLoop (deliver : Nat → Option String) (multi : Bool) :
    Nat → List Schedule → List TEvent
  | _, [] => []
  | i, s :: rest =>
    (match deliver i with
      | none =>
        TEvent.delivered s.id :: (if multi then [TEvent.betweenSleep 3000] else [])
      | some err => [TEvent.errorStatus s.id err]) ++
      tickLoop deliver multi (i + 1) rest

/-- The delivery part of `checkSchedules` (scheduler.js lines 163-198):
compute the due subset; when it is empty do nothing; otherwise report a
working status and run the sequential loop. -/
def checkSchedulesTick (tenv : TickEnv) : List TEvent :=
  let pending := duePending tenv
  if pending.isEmpty then []
  else TEvent.statusWorking ::
    tickLoop tenv.deliver (decide (1 < pending.length)) 0 pending

/-- The processed schedules of a tick trace, in order: each completed
delivery or each reported per-schedule error. -/
def processedIds (evs : List TEvent) : List String :=
  evs.filterMap (fun e =>
    match e with
    | TEvent.delivered id => some id
    | TEvent.errorStatus id _ => some id
    | _ => none)

lemma tickLoop_processedIds (deliver : Nat → Option String) (multi : Bool) :
    ∀ (pending : List Schedule) (i : Nat),
      processedIds (tickLoop deliver multi i pending) = pending.map (fun s => s.id) := by
  intro pending
  induction pending with
  | nil => intro i; simp [tickLoop, processedIds]
  | cons s rest ih =>
    intro i
    rcases hd : deliver i with _ | err
    · cases multi <;>
        simp [tickLoop, hd, processedIds, List.filterMap_append] <;>
        exact ih (i + 1)
    · simp [tickLoop, hd, processedIds, List.filterMap_append]
      exact ih (i + 1)

/-- Recognizer for the tick's settle sleep. -/
def isSettleSleep : TEvent → Bool
  | TEvent.betweenSleep _ => true
  | _ => false

/-- Number of settle sleeps in a tick trace. -/
def settleCount (evs : List TEvent) : Nat :=
  (evs.filter isSettleSleep).length

lemma tickLoop_mem (deliver : Nat → Option String) (multi : Bool) :
    ∀ (pending : List Schedule) (i0 i : Nat) (hi : i < pending.length),
      (∀ err, deliver (i0 + i) = some err →
        TEvent.errorStatus (pending.get ⟨i, hi⟩).id err ∈ tickLoop deliver multi i0 pending) ∧
      (deliver (i0 + i) = none →
        TEvent.delivered (pending.get ⟨i, hi⟩).id ∈ tickLoop deliver multi i0 pending) := by
  intro pending
  induction pending with
  | nil => intro i0 i hi; simp at hi
  | cons s rest ih =>
    intro i0 i hi
    cases i with
    | zero =>
      constructor
      · intro err herr
        rw [Nat.add_zero] at herr
        simp [tickLoop, herr]
      · intro hok
        rw [Nat.add_zero] at hok
        simp [tickLoop, hok]
    | succ j =>
      have hj : j < rest.length := Nat.lt_of_succ_lt_succ hi
      have hidx : i0 + (j + 1) = (i0 + 1) + j := by omega
      constructor
      · intro err herr
        rw [hidx] at herr
        have := (ih (i0 + 1) j hj).1 err herr
        simp only [tickLoop, List.mem_append]
        exact Or.inr this
      · intro hok
        rw [hidx] at hok
        have := (ih (i0 + 1) j hj).2 hok
        simp only [tickLoop, List.mem_append]
        exact Or.inr this

/-- C8: within one tick, the outcome of every due schedule is
independent of its siblings: whenever the i-th due schedule's delivery
body throws, the error is caught and reported as an error status event
— and a completing sibling is still delivered — so a single schedule's
thrown error never aborts the processing of any other schedule due in
the same tick (the tick itself always runs to completion). -/
theorem claim8_error_caught_and_continue :
    ∀ (tenv : TickEnv) (i : Nat) (hi : i < (duePending tenv).length),
      (∀ err, tenv.deliver i = some err →
        TEvent.errorStatus ((duePending tenv).get ⟨i, hi⟩).id err ∈
          checkSchedulesTick tenv) ∧
      (tenv.deliver i = none →
        TEvent.delivered ((duePending tenv).get ⟨i, hi⟩).id ∈
          checkSchedulesTick tenv) := by
  intro tenv i hi
  have hempty : (duePending tenv).isEmpty = false := by
    cases hp : duePending tenv with
    | nil => rw [hp] at hi; simp at hi
    | cons a l => rfl
  unfold checkSchedulesTick
  simp only [hempty, Bool.false_eq_true, if_false]
  have hmem := tickLoop_mem tenv.deliver (decide (1 < (duePending tenv).length))
    (duePending tenv) 0 i hi
  constructor
  · intro err herr
    exact List.mem_cons_of_mem _ (hmem.1 err (by rw [Nat.zero_add]; exact herr))
  · intro hok
    exact List.mem_cons_of_mem _ (hmem.2 (by rw [Nat.zero_add]; exact hok))

/-- A tick with two due schedules where the first delivery body throws
and the second completes. -/
def c8Env : TickEnv where
  schedules := [⟨"a1", "14:30", "Hi", false, some [], none, false, none⟩,
    ⟨"a2", "14:30", "Yo", false, some [], none, false, none⟩]
  currentTime := "14:30"
  dom := ⟨false⟩
  deliver := fun i => if i == 0 then some "boom" else none

/-- C8 witness: in the concrete tick `c8Env` the first schedule's
thrown error is reported and the second schedule is still delivered. -/
theorem claim8_error_caught_and_continue_witness :
    TEvent.errorStatus "a1" "boom" ∈ checkSchedulesTick c8Env ∧
    TEvent.delivered "a2" ∈ checkSchedulesTick c8Env :=
  ⟨(claim8_error_caught_and_continue c8Env 0 (by decide)).1 "boom" rfl,
    (claim8_error_caught_and_continue c8Env 1 (by decide)).2 rfl⟩

/-- A tick with two due schedules whose delivery bodies both
complete. -/
def c9Env : TickEnv where
  schedules := [⟨"a1", "14:30", "Hi", false, some [], none, false, none⟩,
    ⟨"a2", "14:30", "Yo", false, some [], none, false, none⟩]
  currentTime := "14:30"
  dom := ⟨false⟩
  deliver := fun _ => none

/-- C9 counterexample: with two schedules due in the same minute and
both deliveries completing, the tick's trace ends with a 3-second
settle sleep — the `pendingSchedules.length > 1` sleep runs after every
delivery, including the last of the tick — refuting the claim that the
delay occurs only between consecutive deliveries and not after the
last. -/
theorem claim9_counterexample :
    checkSchedulesTick c9Env =
      [TEvent.statusWorking, TEvent.delivered "a1", TEvent.betweenSleep 3000,
        TEvent.delivered "a2", TEvent.betweenSleep 3000] ∧
    (checkSchedulesTick c9Env).getLast? = some (TEvent.betweenSleep 3000) ∧
    settleCount (checkSchedulesTick c9Env) = 2 := by
  refine ⟨?_, ?_, ?_⟩ <;> decide

lemma tickLoop_no_sleep (deliver : Nat → Option String) :
    ∀ (pending : List Schedule) (i0 : Nat),
      ∀ e ∈ tickLoop deliver false i0 pending, isSettleSleep e = false := by
  intro pending
  induction pending with
  | nil => intro i0 e he; simp [tickLoop] at he
  | cons s rest ih =>
    intro i0 e he
    rcases hd : deliver i0 with _ | err <;>
      simp only [tickLoop, hd, Bool.false_eq_true, if_false, List.append_nil,
        List.mem_append, List.mem_cons, List.not_mem_nil, or_false] at he
    · rcases he with rfl | he
      · rfl
      · exact ih (i0 + 1) e he
    · rcases he with rfl | he
      · rfl
      · exact ih (i0 + 1) e he

lemma tickLoop_settleCount (deliver : Nat → Option String) :
    ∀ (pending : List Schedule) (i0 : Nat),
      settleCount (tickLoop deliver true i0 pending) =
        ((List.range' i0 pending.length).filter
          (fun i => (deliver i).isNone)).length := by
  intro pending
  induction pending with
  | nil => intro i0; simp [tickLoop, settleCount]
  | cons s rest ih =>
    intro i0
    simp only [List.length_cons, List.range'_succ, List.filter_cons]
    rcases hd : deliver i0 with _ | err
    · have hih := ih (i0 + 1)
      simp only [settleCount] at hih
      simp [tickLoop, hd, settleCount, isSettleSleep, List.filter_append,
        List.filter_cons, hih, Nat.add_comm]
    · have hih := ih (i0 + 1)
      simp only [settleCount] at hih
      simp [tickLoop, hd, settleCount, isSettleSleep, List.filter_append,
        List.filter_cons, hih]

lemma tickLoop_ne_nil (deliver : Nat → Option String) (multi : Bool)
    (s : Schedule) (rest : List Schedule) (i0 : Nat) :
    tickLoop deliver multi i0 (s :: rest) ≠ [] := by
  rcases hd : deliver i0 with _ | err <;> cases multi <;> simp [tickLoop, hd]

lemma tickLoop_getLast (deliver : Nat → Option String) :
    ∀ (pending : List Schedule) (i0 : Nat), pending ≠ [] →
      deliver (i0 + pending.length - 1) = none →
      (tickLoop deliver true i0 pending).getLast? =
        some (TEvent.betweenSleep 3000) := by
  intro pending
  induction pending with
  | nil => intro i0 h; exact absurd rfl h
  | cons s rest ih =>
    intro i0 _ hlast
    cases rest with
    | nil =>
      have h0 : deliver i0 = none := by
        simpa using hlast
      simp [tickLoop, h0, List.getLast?]
    | cons b rest' =>
      have hlast' : deliver ((i0 + 1) + (b :: rest').length - 1) = none := by
        have : (i0 + 1) + (b :: rest').length - 1 =
            i0 + (s :: b :: rest').length - 1 := by
          simp
          omega
        rw [this]
        exact hlast
      have hih := ih (i0 + 1) (by simp) hlast'
      rw [tickLoop]
      rw [List.getLast?_append_of_ne_nil _
        (tickLoop_ne_nil deliver true b rest' (i0 + 1))]
      exact hih

/-- C9 (amended): the tick processes the due subset strictly
sequentially in stable (filter) order — every due schedule is processed
exactly once, in order, whatever the individual outcomes — and, whenever
more than one schedule is due in the same minute, inserts the fixed
3-second settle delay after each delivery whose body completes,
including the last of the tick (not only between consecutive
deliveries); with at most one schedule due there is no settle delay at
all. -/
theorem claim9_sequential_settle_delays :
    ∀ (tenv : TickEnv),
      processedIds (checkSchedulesTick tenv) =
        (duePending tenv).map (fun s => s.id) ∧
      ((duePending tenv).length ≤ 1 →
        settleCount (checkSchedulesTick tenv) = 0) ∧
      (1 < (duePending tenv).length →
        settleCount (checkSchedulesTick tenv) =
          ((List.range (duePending tenv).length).filter
            (fun i => (tenv.deliver i).isNone)).length) ∧
      (1 < (duePending tenv).length →
        tenv.deliver ((duePending tenv).length - 1) = none →
        (checkSchedulesTick tenv).getLast? = some (TEvent.betweenSleep 3000)) := by
  intro tenv
  by_cases hempty : (duePending tenv).isEmpty = true
  · have hnil : duePending tenv = [] := by
      cases hp : duePending tenv with
      | nil => rfl
      | cons a l => rw [hp] at hempty; simp at hempty
    unfold checkSchedulesTick
    rw [hnil]
    simp [processedIds, settleCount, hnil]
  · have hempty' : (duePending tenv).isEmpty = false := by
      cases h : (duePending tenv).isEmpty
      · rfl
      · exact absurd h hempty
    unfold checkSchedulesTick
    simp only [hempty', Bool.false_eq_true, if_false]
    refine ⟨?_, ?_, ?_, ?_⟩
    · simp only [processedIds, List.filterMap_cons]
      exact tickLoop_processedIds tenv.deliver _ (duePending tenv) 0
    · intro hle
      have hmul : decide (1 < (duePending tenv).length) = false := by
        simp
        omega
      rw [hmul]
      simp only [settleCount, List.filter_cons, isSettleSleep, Bool.false_eq_true,
        if_false]
      have := tickLoop_no_sleep tenv.deliver (duePending tenv) 0
      rw [List.filter_eq_nil_iff.mpr (fun e he => by rw [this e he]; simp)]
      rfl
    · intro hgt
      have hmul : decide (1 < (duePending tenv).length) = true := by
        simpa using hgt
      rw [hmul]
      simp only [settleCount, List.filter_cons, isSettleSleep, Bool.false_eq_true,
        if_false]
      rw [List.range_eq_range']
      exact tickLoop_settleCount tenv.deliver (duePending tenv) 0
    · intro hgt hdel
      have hmul : decide (1 < (duePending tenv).length) = true := by
        simpa using hgt
      rw [hmul]
      have hne : duePending tenv ≠ [] := by
        intro h
        rw [h] at hgt
        simp at hgt
      have hloop := tickLoop_getLast tenv.deliver (duePending tenv) 0 hne
        (by rw [Nat.zero_add]; exact hdel)
      have hlne : tickLoop tenv.deliver true 0 (duePending tenv) ≠ [] := by
        rcases List.exists_cons_of_ne_nil hne with ⟨s, rest, heq⟩
        rw [heq]
        exact tickLoop_ne_nil tenv.deliver true s rest 0
      calc (TEvent.statusWorking ::
            tickLoop tenv.deliver true 0 (duePending tenv)).getLast?
          = ([TEvent.statusWorking] ++
              tickLoop tenv.deliver true 0 (duePending tenv)).getLast? := rfl
        _ = (tickLoop tenv.deliver true 0 (duePending tenv)).getLast? :=
            List.getLast?_append_of_ne_nil _ hlne
        _ = some (TEvent.betweenSleep 3000) := hloop

/-- C9 witness: in the concrete two-schedule tick `c9Env` the settle
sleeps number one per completed delivery and the trace ends with one. -/
theorem claim9_sequential_settle_delays_witness :
    settleCount (checkSchedulesTick c9Env) =
      ((List.range (duePending c9Env).length).filter
        (fun i => (c9Env.deliver i).isNone)).length ∧
    (checkSchedulesTick c9Env).getLast? = some (TEvent.betweenSleep 3000) :=
  ⟨(claim9_sequential_settle_delays c9Env).2.2.1 (by decide),
    (claim9_sequential_settle_delays c9Env).2.2.2 (by decide) rfl⟩

end WAutoSend
